import Mathlib

/-
Verification development for a decoder-only language-model training/evaluation
codebase (src/train.py, src/evaluate.py, src/train_inverse_bert.py).

The embedding is shallow: the dataset bucketing schedule, the masked-loss
computations, the counter updates of the training loops, the checkpoint
restore logic and the outermost exception handling are translated into Lean
definitions; the external transformer model and cross-entropy kernel are
abstracted as a per-position cross-entropy value function.
-/

namespace LMSwe

/-! ## Bucketing (train.py, get_dataset, lines 26-33) -/

/-- Bucket length boundaries, train.py line 26:
`boundaries = [i for i in range(1, max_seq_len + 1) if max_tokens % i == 0]`. -/
def boundaries (max_tokens max_seq_len : Nat) : List Nat :=
  (List.range' 1 max_seq_len).filter (fun i => max_tokens % i == 0)

/-- Bucket batch sizes, train.py line 27:
`batch_sizes = [int(max_tokens / i) for i in range(1, max_seq_len + 1) if max_tokens % i == 0] + [1]`.
Since the comprehension keeps only exact divisors `i` of `max_tokens`, the Python float
division `max_tokens / i` is exact and `int` of it equals the integer quotient. -/
def batch_sizes (max_tokens max_seq_len : Nat) : List Nat :=
  ((List.range' 1 max_seq_len).filter (fun i => max_tokens % i == 0)).map
    (fun i => max_tokens / i) ++ [1]

/-- Lower ends of the length buckets used by
`tf.data.experimental.bucket_by_sequence_length` (TensorFlow grouping code):
`buckets_min = [np.iinfo(np.int32).min] + boundaries`. -/
def bucketsMin (bds : List Int) : List Int := (-(2 ^ 31)) :: bds

/-- Upper ends of the length buckets:
`buckets_max = boundaries + [np.iinfo(np.int32).max]`. -/
def bucketsMax (bds : List Int) : List Int := bds ++ [2 ^ 31 - 1]

/-- `element_to_bucket_id` of `tf.data.experimental.bucket_by_sequence_length`:
the least bucket index `i` with `buckets_min[i] <= seq_length < buckets_max[i]`
(`reduce_min` over the indices where the condition holds). -/
def element_to_bucket_id (bds : List Int) (len : Int) : Nat :=
  List.findIdx
    (fun i => decide ((bucketsMin bds).getD i 0 ≤ len) &&
              decide (len < (bucketsMax bds).getD i 0))
    (List.range (bds.length + 1))

/-- Batch size of the bucket that a sequence of length `len` is routed to by
the training pipeline of train.py with hyperparameters `max_tokens`, `max_seq_len`. -/
def routed_batch_size (max_tokens max_seq_len len : Nat) : Nat :=
  (batch_sizes max_tokens max_seq_len).getD
    (element_to_bucket_id ((boundaries max_tokens max_seq_len).map Int.ofNat)
      (Int.ofNat len)) 0

/-! ## Counters (train.py lines 83-85, train_inverse_bert.py lines 142-146) -/

/-- The two persistent counters created in both training entry points. -/
structure Counters where
  global_step : Int
  num_examples_processed : Int
deriving DecidableEq

/-- Counter updates performed by one iteration of the train.py training loop
(lines 83-85): `global_step.assign_add(1)` and
`num_examples_processed.assign_add(tf.shape(batch)[0])`. -/
def train_step_counters (c : Counters) (batch_rows : Nat) : Counters :=
  { global_step := c.global_step + 1,
    num_examples_processed := c.num_examples_processed + batch_rows }

/-- Counter updates performed by one iteration of the train_inverse_bert.py
training loop (lines 142-146): only `global_step.assign_add(1)` is executed;
`num_examples_processed` is never assigned after its initialization, although
it is printed in the progress log and stored in the checkpoint. -/
def inverse_step_counters (c : Counters) (_batch_rows : Nat) : Counters :=
  { global_step := c.global_step + 1,
    num_examples_processed := c.num_examples_processed }

/-! ## Checkpoint restore at startup (train.py lines 119-138, evaluate.py lines 50-56) -/

/-- The state bound together by `tf.train.Checkpoint` in train.py lines 125-126:
model parameters, optimizer state and both counters.  The external model and
optimizer states are abstracted as type parameters. -/
structure Checkpoint (M O : Type) where
  transformer_decoder : M
  optimizer : O
  global_step : Int
  num_examples_processed : Int

/-- In-process training state after startup. -/
structure TrainState (M O : Type) where
  transformer_decoder : M
  optimizer : O
  global_step : Int
  num_examples_processed : Int

/-- Startup logic of train.py main (lines 119-131): counters are created at 0,
then `if ckpt_manager.latest_checkpoint: ckpt.restore(...)` rebinds model,
optimizer and both counters from the checkpoint; with no checkpoint present
nothing is restored and the zero-initialized state is kept. -/
def main_init (M O : Type) (fresh_model : M) (fresh_opt : O)
    (latest_checkpoint : Option (Checkpoint M O)) : TrainState M O :=
  match latest_checkpoint with
  | some c => ⟨c.transformer_decoder, c.optimizer, c.global_step, c.num_examples_processed⟩
  | none => ⟨fresh_model, fresh_opt, 0, 0⟩

/-- Counter evolution of the train.py loop run from a startup state over a list
of batches (given by their row counts). -/
def run_train_loop_counters (M O : Type) (st : TrainState M O)
    (batch_rows : List Nat) : Counters :=
  batch_rows.foldl (fun c rows => train_step_counters c rows)
    ⟨st.global_step, st.num_examples_processed⟩

/-! ## Outermost exception handling (train.py 140-145, evaluate.py 118-136,
train_inverse_bert.py 142-161) -/

/-- The exceptions relevant to the entry points: the user interrupt, and the
`RuntimeError` raised by evaluate.py when no checkpoint can be loaded. -/
inductive Exn where
  | keyboardInterrupt
  | runtimeError
deriving DecidableEq

/-- Abstract run of a training/evaluation loop body: the loop finishes normally
unless a keyboard interrupt arrives at some iteration before it is done. -/
def run_loop (interrupt_at : Option Nat) (num_iters : Nat) : Except Exn Unit :=
  match interrupt_at with
  | some i => if i < num_iters then Except.error Exn.keyboardInterrupt else Except.ok ()
  | none => Except.ok ()

/-- The handler `try: ... except KeyboardInterrupt: pass` wrapping the loop in
train.py main (lines 140-145) and evaluate.py main (lines 120-136).  It catches
only the keyboard interrupt; any other exception propagates. -/
def catch_keyboard_interrupt (r : Except Exn Unit) : Except Exn Unit :=
  match r with
  | Except.error Exn.keyboardInterrupt => Except.ok ()
  | r => r

/-- train.py main: the training loop runs inside the keyboard-interrupt handler. -/
def train_main (interrupt_at : Option Nat) (num_iters : Nat) : Except Exn Unit :=
  catch_keyboard_interrupt (run_loop interrupt_at num_iters)

/-- evaluate.py main: the evaluation/polling loop runs inside the
keyboard-interrupt handler. -/
def evaluate_main (interrupt_at : Option Nat) (num_iters : Nat) : Except Exn Unit :=
  catch_keyboard_interrupt (run_loop interrupt_at num_iters)

/-- train_inverse_bert.py main (lines 142-161): the training loop runs with no
surrounding exception handler, so any exception raised in it propagates out. -/
def inverse_main (interrupt_at : Option Nat) (num_iters : Nat) : Except Exn Unit :=
  run_loop interrupt_at num_iters

/-- Restore step of evaluate.py evaluate (lines 50-56): with a latest checkpoint
present the model is restored and the metric computation proceeds; with none,
`raise RuntimeError` fires before any metrics are computed (the metric
computation `compute_metrics` is never consulted on that path). -/
def evaluate_run (M A : Type) (latest_checkpoint : Option M)
    (compute_metrics : M → A) : Except Exn A :=
  match latest_checkpoint with
  | some m => Except.ok (compute_metrics m)
  | none => Except.error Exn.runtimeError

/-! ## Masking and loss engine

The external cross-entropy kernel `loss_object(real, pred)` produces one value
per (row, position); the loss functions below take those per-position values as
an explicit argument and perform the masking and reduction that the repository
code performs on them. -/

/-- `tf.boolean_mask` applied per row: keep the values at the positions where
the mask is true, in order. -/
def boolean_mask : List Bool → List ℚ → List ℚ
  | true :: bs, v :: vs => v :: boolean_mask bs vs
  | false :: bs, _ :: vs => boolean_mask bs vs
  | _, _ => []

/-- `tf.reduce_mean`: sum of the values divided by how many there are.  On an
empty list TensorFlow yields NaN; here the rational division yields 0, and every
statement that depends on the mean carries a nondegeneracy hypothesis. -/
def reduce_mean (vals : List ℚ) : ℚ := vals.sum / (vals.length : ℚ)

/-- Padding mask of one row of targets:
`mask = tf.math.logical_not(tf.math.equal(real, 0))`
(train.py line 49, evaluate.py line 77, train_inverse_bert.py line 107). -/
def padding_mask_row (real : List Int) : List Bool := real.map (fun t => t != 0)

namespace Train

/-- train.py `calculate_loss` (lines 47-52), with the per-position
cross-entropy values `loss_` given:
mask out padded target positions, then `reduce_mean(boolean_mask(loss_, mask))`. -/
def calculate_loss (real : List (List Int)) (loss_ : List (List ℚ)) : ℚ :=
  reduce_mean (((real.zip loss_).map
    (fun p => boolean_mask (padding_mask_row p.1) p.2)).flatten)

end Train

namespace Evaluate

/-- evaluate.py `evaluation_step` line 70: `batch_tar = batch[:, 1:]`. -/
def batch_tar (row : List Int) : List Int := row.drop 1

/-- Total sample weight fed to the accuracy metric over a batch: the padding
mask over the one-position-shifted targets (evaluate.py lines 77-78), counted
over all rows. -/
def sample_weight_sum (batch : List (List Int)) : Nat :=
  (batch.map (fun row => (padding_mask_row (batch_tar row)).count true)).sum

end Evaluate

/-! ## Abstract causal cross-entropy model (for train.py `train_step`)

The transformer is external; under the causal (look-ahead) mask built by
`transformer.create_masks`, its logits at position `i` depend only on input
positions `0..i`, so the per-position cross-entropy against the target token at
`i` depends only on the first `i+1` input tokens and the target token at `i`. -/

/-- Causality of the abstract per-position cross-entropy function
`ce inputs targets i`. -/
def CausalCE (ce : List Int → List Int → Nat → ℚ) : Prop :=
  ∀ inp inp₂ tar tar₂ i, inp.take (i + 1) = inp₂.take (i + 1) →
    tar.getD i 0 = tar₂.getD i 0 → ce inp tar i = ce inp₂ tar₂ i

/-- Per-position cross-entropy values of one row under train.py `train_step`
(lines 54-65): inputs `tar_inp = batch[:, :-1]`, targets `tar_real = batch[:, 1:]`,
one value per target position. -/
def row_loss_vals (ce : List Int → List Int → Nat → ℚ) (row : List Int) : List ℚ :=
  (List.range (row.drop 1).length).map (fun i => ce row.dropLast (row.drop 1) i)

/-- Loss value computed by one train.py training step on a batch. -/
def train_step_loss (ce : List Int → List Int → Nat → ℚ)
    (batch : List (List Int)) : ℚ :=
  Train.calculate_loss (batch.map (fun row => row.drop 1)) (batch.map (row_loss_vals ce))

/-- Append `k` trailing padding tokens to a row. -/
def pad_row (k : Nat) (row : List Int) : List Int := row ++ List.replicate k 0

/-- A batch is nondegenerate when at least one target position is non-padding. -/
def nondegenerate (batch : List (List Int)) : Bool :=
  batch.any (fun row => (row.drop 1).any (fun t => t != 0))

namespace InverseBert

/-- `tf.sequence_mask len width`: position `j` is true iff `j < len`. -/
def sequence_mask (len width : Nat) : List Bool :=
  (List.range width).map (fun j => decide (j < len))

/-- train_inverse_bert.py `calculate_loss` lines 110-111:
`lengths = tf.argmax(tf.cast(tf.equal(gt, start_idx), int32), axis=1)` followed by
`lengths += tf.cast(lengths > 0, int64)`.  `tf.argmax` returns the index of the
first maximal entry, hence the index of the first start token when one is
present and 0 when the indicator row is all zeros. -/
def lengths (start_idx : Int) (gt : List Int) : Nat :=
  let l := if gt.any (fun t => t == start_idx)
           then gt.findIdx (fun t => t == start_idx) else 0
  l + (if 0 < l then 1 else 0)

/-- train_inverse_bert.py `calculate_loss` lines 107-115: the final loss mask of
one target row is the padding mask AND the negation of
`tf.sequence_mask(lengths, width)`. -/
def final_mask (start_idx : Int) (gt : List Int) : List Bool :=
  let input_mask := (sequence_mask (lengths start_idx gt) gt.length).map (fun b => !b)
  (padding_mask_row gt).zipWith (fun a b => a && b) input_mask

/-- train_inverse_bert.py `calculate_loss` (lines 103-116) with the
per-position cross-entropy values given. -/
def calculate_loss (start_idx : Int) (gt : List (List Int))
    (loss : List (List ℚ)) : ℚ :=
  reduce_mean (((gt.zip loss).map
    (fun p => boolean_mask (final_mask start_idx p.1) p.2)).flatten)

end InverseBert

/-- Modelled from the claim wording for C3: the conditioning-prefix region of a
row is all positions up to and including the first occurrence of the start
token whenever a start token is present (empty when absent). -/
def claimed_region_len (start_idx : Int) (gt : List Int) : Nat :=
  if gt.any (fun t => t == start_idx)
  then gt.findIdx (fun t => t == start_idx) + 1 else 0

/-- Modelled from the claim wording for C3: a position contributes to the loss
iff it is non-padding and lies outside the claimed prefix region. -/
def claimed_mask (start_idx : Int) (gt : List Int) : List Bool :=
  (List.range gt.length).map
    (fun j => (gt.getD j 0 != 0) && decide (claimed_region_len start_idx gt ≤ j))

/-- Mean of the per-position cross-entropy over exactly the positions selected
by `claimed_mask` (the loss value asserted by claim C3). -/
def claimed_loss (start_idx : Int) (gt : List (List Int))
    (loss : List (List ℚ)) : ℚ :=
  reduce_mean (((gt.zip loss).map
    (fun p => boolean_mask (claimed_mask start_idx p.1) p.2)).flatten)

/-- Amended prefix region: all positions up to and including the first start
token when one is present at a positive position; empty when no start token is
present or the first one sits at position 0. -/
def amended_region_len (start_idx : Int) (gt : List Int) : Nat :=
  if gt.any (fun t => t == start_idx) ∧ 0 < gt.findIdx (fun t => t == start_idx)
  then gt.findIdx (fun t => t == start_idx) + 1 else 0

/-- Amended loss mask: non-padding and outside the amended prefix region. -/
def amended_mask (start_idx : Int) (gt : List Int) : List Bool :=
  (List.range gt.length).map
    (fun j => (gt.getD j 0 != 0) && decide (amended_region_len start_idx gt ≤ j))

/-- Mean of the per-position cross-entropy over exactly the positions selected
by `amended_mask`. -/
def amended_loss (start_idx : Int) (gt : List (List Int))
    (loss : List (List ℚ)) : ℚ :=
  reduce_mean (((gt.zip loss).map
    (fun p => boolean_mask (amended_mask start_idx p.1) p.2)).flatten)

/-! ## Helper lemmas -/

/-- Folding the train.py counter update over a list of batches advances the
global step by the number of batches. -/
theorem foldl_train_step_global (rows : List Nat) (c : Counters) :
    (rows.foldl (fun c r => train_step_counters c r) c).global_step
      = c.global_step + rows.length := by
  induction rows generalizing c with
  | nil => simp
  | cons r rs ih =>
      rw [List.foldl_cons, ih]
      simp [train_step_counters]
      omega

/-- The keyboard-interrupt handler never lets the interrupt escape. -/
theorem catch_keyboard_interrupt_ne (r : Except Exn Unit) :
    catch_keyboard_interrupt r ≠ Except.error Exn.keyboardInterrupt := by
  cases r with
  | ok a => simp [catch_keyboard_interrupt]
  | error e => cases e <;> simp [catch_keyboard_interrupt]

/-- The length computed by train_inverse_bert.py lines 110-111 equals the
amended prefix-region length: first start index plus one when the first start
token sits at a positive position, and zero otherwise. -/
theorem lengths_eq_amended (s : Int) (gt : List Int) :
    InverseBert.lengths s gt = amended_region_len s gt := by
  unfold InverseBert.lengths amended_region_len
  by_cases h : gt.any (fun t => t == s)
  · by_cases hp : 0 < gt.findIdx (fun t => t == s)
    · simp [h, hp]
    · simp [h, hp]
      omega
  · simp [h]

/-- The loss mask computed by train_inverse_bert.py calculate_loss coincides
with the amended mask on every row. -/
theorem final_mask_eq_amended (s : Int) (gt : List Int) :
    InverseBert.final_mask s gt = amended_mask s gt := by
  apply List.ext_getElem
  · simp [InverseBert.final_mask, amended_mask, InverseBert.sequence_mask, padding_mask_row]
  · intro j h1 h2
    have hj : j < gt.length := by
      simpa [InverseBert.final_mask, InverseBert.sequence_mask, padding_mask_row] using h1
    simp only [InverseBert.final_mask, amended_mask, InverseBert.sequence_mask,
      padding_mask_row, List.getElem_zipWith, List.getElem_map, List.getElem_range,
      lengths_eq_amended]
    rw [List.getD_eq_getElem gt 0 hj]
    by_cases hL : amended_region_len s gt ≤ j
    · simp [hL, show ¬(j < amended_region_len s gt) from Nat.not_lt.mpr hL]
    · simp [hL, Nat.lt_of_not_le hL]

/-- Conjoining a boolean row with an all-true row of the same length is the
identity. -/
theorem zipWith_and_replicate_true (l : List Bool) (n : Nat) (h : l.length = n) :
    l.zipWith (fun a b => a && b) (List.replicate n true) = l := by
  induction l generalizing n with
  | nil => simp
  | cons a l ih =>
      cases n with
      | zero => simp at h
      | succ m => simp [List.replicate_succ, ih m (by simpa using h)]

/-- `boolean_mask` distributes over appending, provided the first mask and the
first value list have equal length. -/
theorem boolean_mask_append (m₁ m₂ : List Bool) (v₁ v₂ : List ℚ)
    (h : m₁.length = v₁.length) :
    boolean_mask (m₁ ++ m₂) (v₁ ++ v₂) = boolean_mask m₁ v₁ ++ boolean_mask m₂ v₂ := by
  induction m₁ generalizing v₁ with
  | nil =>
      cases v₁ with
      | nil => simp [boolean_mask]
      | cons v vs => simp at h
  | cons b bs ih =>
      cases v₁ with
      | nil => simp at h
      | cons v vs =>
          cases b <;> simp [boolean_mask, ih vs (by simpa using h)]

/-- An all-false mask selects nothing. -/
theorem boolean_mask_replicate_false (n : Nat) (v : List ℚ) :
    boolean_mask (List.replicate n false) v = [] := by
  induction n generalizing v with
  | zero => simp [boolean_mask]
  | succ m ih =>
      cases v with
      | nil => simp [List.replicate_succ, boolean_mask]
      | cons x xs => simp [List.replicate_succ, boolean_mask, ih]

/-- Per-row core of the padding-invariance property: appending trailing padding
to a row leaves the list of masked per-position cross-entropy values unchanged,
for a causal cross-entropy function. -/
theorem masked_row_pad (ce : List Int → List Int → Nat → ℚ) (hce : CausalCE ce)
    (row : List Int) (k : Nat) :
    boolean_mask (padding_mask_row ((pad_row k row).drop 1))
        (row_loss_vals ce (pad_row k row))
      = boolean_mask (padding_mask_row (row.drop 1)) (row_loss_vals ce row) := by
  cases k with
  | zero => simp [pad_row]
  | succ k₀ =>
    cases row with
    | nil =>
        simp only [pad_row, List.nil_append, List.drop_replicate]
        rw [show padding_mask_row (List.replicate (k₀ + 1 - 1) (0 : Int))
              = List.replicate (k₀ + 1 - 1) false by simp [padding_mask_row]]
        rw [boolean_mask_replicate_false]
        simp [padding_mask_row, boolean_mask, row_loss_vals]
    | cons a rest =>
        have htar : (pad_row (k₀ + 1) (a :: rest)).drop 1
            = rest ++ List.replicate (k₀ + 1) (0 : Int) := rfl
        unfold row_loss_vals
        rw [htar]
        have hlen : (rest ++ List.replicate (k₀ + 1) (0 : Int)).length
            = rest.length + (k₀ + 1) := by simp
        rw [hlen, List.range_add, List.map_append]
        rw [show padding_mask_row (rest ++ List.replicate (k₀ + 1) (0 : Int))
              = padding_mask_row rest ++ List.replicate (k₀ + 1) false by
            simp [padding_mask_row]]
        rw [boolean_mask_append _ _ _ _ (by simp [padding_mask_row])]
        rw [boolean_mask_replicate_false, List.append_nil]
        rw [show (a :: rest).drop 1 = rest from rfl]
        congr 1
        apply List.map_congr_left
        intro i hi
        have him : i < rest.length := List.mem_range.mp hi
        apply hce
        · rw [List.dropLast_eq_take, List.dropLast_eq_take, List.take_take, List.take_take]
          rw [show (pad_row (k₀ + 1) (a :: rest)).length = rest.length + 1 + (k₀ + 1) by
                simp only [pad_row, List.length_append, List.length_cons,
                  List.length_replicate]]
          rw [show rest.length + 1 + (k₀ + 1) - 1 = rest.length + (k₀ + 1) by omega]
          rw [show (a :: rest).length - 1 = rest.length by simp]
          rw [min_eq_left (by omega), min_eq_left (by omega)]
          rw [show pad_row (k₀ + 1) (a :: rest)
                = (a :: rest) ++ List.replicate (k₀ + 1) (0 : Int) from rfl]
          rw [List.take_append_of_le_length (by simp; omega)]
        · exact List.getD_append _ _ _ _ him

/-! ## Claims -/

set_option maxRecDepth 8000 in
/-- Claim C1, counterexample: with `max_tokens = 100`, `max_seq_len = 600`, a
sequence of length 10 is NOT routed to a bucket of batch size
`100 // k` for `k` the smallest divisor of 100 that is `≥ 10` (which would be
batch size 10): the boundaries of `bucket_by_sequence_length` are exclusive
upper bounds, so length 10 falls in the bucket `[10, 20)` of batch size 5. -/
theorem C1_counterexample : routed_batch_size 100 600 10 ≠ 10 := by decide

set_option maxRecDepth 8000 in
/-- Claim C1 (amended): with `max_tokens = 100`, `max_seq_len = 600`, a
sequence of length 10 is routed to the bucket of batch size `100 // k` where
`k = 20` is the smallest divisor of 100 strictly greater than 10 (batch size 5),
and a sequence of length 601 is routed to the fallback bucket of batch size 1. -/
theorem C1_bucket_routing :
    routed_batch_size 100 600 10 = 100 / 20 ∧
    100 % 20 = 0 ∧
    (∀ d, d < 20 → 10 < d → ¬ 100 % d = 0) ∧
    routed_batch_size 100 600 601 = 1 := by decide

/-- Claim C2, counterexample: on the single-batch dataset of the two sequences
`[1,2,3,0]` and `[1,2,0,0]`, the accuracy-metric sample weights (the padding
mask over the one-position-shifted targets) do not sum to 5. -/
theorem C2_counterexample :
    Evaluate.sample_weight_sum [[1, 2, 3, 0], [1, 2, 0, 0]] ≠ 5 := by decide

/-- Claim C2 (amended): on that dataset the shifted targets are `[2,3,0]` and
`[2,0,0]`; the padding masks exclude target position 2 (original position 3)
of the first row and target positions 1-2 (original positions 2-3) of the
second row from the loss sum, and the sample weights sum to exactly 3
(2 + 1 valid target positions after the one-token shift). -/
theorem C2_eval_masking :
    padding_mask_row (Evaluate.batch_tar [1, 2, 3, 0]) = [true, true, false] ∧
    padding_mask_row (Evaluate.batch_tar [1, 2, 0, 0]) = [true, false, false] ∧
    Train.calculate_loss [Evaluate.batch_tar [1, 2, 3, 0], Evaluate.batch_tar [1, 2, 0, 0]]
      [[1, 2, 4], [8, 16, 32]] = (1 + 2 + 8) / 3 ∧
    Evaluate.sample_weight_sum [[1, 2, 3, 0], [1, 2, 0, 0]] = 3 := by
  refine ⟨by decide, by decide, ?_, by decide⟩
  simp [Train.calculate_loss, Evaluate.batch_tar, padding_mask_row, boolean_mask, reduce_mean]
  norm_num

/-- Claim C4 (code bug demonstration): one iteration of the train.py loop with
a batch of 7 sequences advances `global_step` by 1 and
`num_examples_processed` by 7, but one iteration of the train_inverse_bert.py
loop advances only `global_step`; `num_examples_processed` stays at 0 there. -/
theorem C4_counter_updates :
    (train_step_counters ⟨0, 0⟩ 7).global_step = 1 ∧
    (train_step_counters ⟨0, 0⟩ 7).num_examples_processed = 7 ∧
    (inverse_step_counters ⟨0, 0⟩ 7).global_step = 1 ∧
    (inverse_step_counters ⟨0, 0⟩ 7).num_examples_processed = 0 := by decide

/-- Claim C5, counterexample: a keyboard interrupt raised during the
train_inverse_bert.py training loop propagates out of the entry point
(no handler exists there), contradicting the claim that it is always caught. -/
theorem C5_counterexample :
    inverse_main (some 0) 1 = Except.error Exn.keyboardInterrupt := rfl

/-- Claim C5 (amended): a keyboard interrupt raised at any point of the
train.py or evaluate.py loops is caught by the outermost handler of that entry
point and never propagates; the train_inverse_bert.py entry point has no such
handler and an interrupt raised in its loop propagates out as a crash. -/
theorem C5_interrupt_handling (ia : Option Nat) (n i : Nat) (hi : i < n) :
    train_main ia n ≠ Except.error Exn.keyboardInterrupt ∧
    evaluate_main ia n ≠ Except.error Exn.keyboardInterrupt ∧
    inverse_main (some i) n = Except.error Exn.keyboardInterrupt := by
  refine ⟨catch_keyboard_interrupt_ne _, catch_keyboard_interrupt_ne _, ?_⟩
  simp [inverse_main, run_loop, hi]

/-- Witness for C5_interrupt_handling at the concrete instance
`interrupt_at = some 0`, one loop iteration. -/
theorem C5_witness :
    0 < 1 ∧
    (train_main (some 0) 1 ≠ Except.error Exn.keyboardInterrupt ∧
     evaluate_main (some 0) 1 ≠ Except.error Exn.keyboardInterrupt ∧
     inverse_main (some 0) 1 = Except.error Exn.keyboardInterrupt) :=
  ⟨by decide, C5_interrupt_handling (some 0) 1 0 (by decide)⟩

/-- Claim C6: restoring a present checkpoint binds model parameters, optimizer
state, global step and example counter together; training then resumes with the
global step at exactly its persisted value (after `k` further batches it is
`N + k`, not `k`); with no checkpoint both counters start at zero and the loop
proceeds from there. -/
theorem C6_checkpoint_resume (M O : Type) (fm : M) (fo : O)
    (c : Checkpoint M O) (batch_rows : List Nat) :
    (main_init M O fm fo (some c)).transformer_decoder = c.transformer_decoder ∧
    (main_init M O fm fo (some c)).optimizer = c.optimizer ∧
    (main_init M O fm fo (some c)).global_step = c.global_step ∧
    (main_init M O fm fo (some c)).num_examples_processed = c.num_examples_processed ∧
    (run_train_loop_counters M O (main_init M O fm fo (some c)) batch_rows).global_step
      = c.global_step + batch_rows.length ∧
    (main_init M O fm fo none).global_step = 0 ∧
    (main_init M O fm fo none).num_examples_processed = 0 ∧
    (run_train_loop_counters M O (main_init M O fm fo none) batch_rows).global_step
      = batch_rows.length := by
  refine ⟨rfl, rfl, rfl, rfl, ?_, rfl, rfl, ?_⟩
  · simpa [run_train_loop_counters, main_init] using
      foldl_train_step_global batch_rows ⟨c.global_step, c.num_examples_processed⟩
  · simpa [run_train_loop_counters, main_init] using
      foldl_train_step_global batch_rows ⟨0, 0⟩

/-- Claim C7: with no checkpoint loadable at evaluation startup, evaluate.py
fails with a `RuntimeError` whose value does not depend on the metric
computation (no metrics are computed), and the outer handler of evaluate.py
main does not catch it, so the process aborts. -/
theorem C7_missing_checkpoint_fatal (M A : Type) (f g : M → A) :
    evaluate_run M A none f = Except.error Exn.runtimeError ∧
    evaluate_run M A none f = evaluate_run M A none g ∧
    catch_keyboard_interrupt (Except.error Exn.runtimeError)
      = Except.error Exn.runtimeError :=
  ⟨rfl, rfl, rfl⟩

/-- Claim C9: every enumerated bucket of the training bucket schedule satisfies
`boundary * batch_size = max_tokens` exactly, and the appended fallback bucket
(the final batch size, index `(boundaries).length`) has batch size 1. -/
theorem C9_bucket_token_budget (mt msl j : Nat)
    (hj : j < (boundaries mt msl).length) :
    (boundaries mt msl).getD j 0 * (batch_sizes mt msl).getD j 0 = mt ∧
    (batch_sizes mt msl).getD (boundaries mt msl).length 0 = 1 := by
  have hbs : batch_sizes mt msl = (boundaries mt msl).map (fun i => mt / i) ++ [1] := rfl
  constructor
  · have hmap : j < ((boundaries mt msl).map (fun i => mt / i)).length := by
      simpa using hj
    rw [hbs, List.getD_append _ _ _ _ hmap, List.getD_eq_getElem _ _ hmap,
        List.getD_eq_getElem _ _ hj, List.getElem_map]
    have hmem : (boundaries mt msl)[j] ∈ boundaries mt msl := List.getElem_mem hj
    have hmod : mt % (boundaries mt msl)[j] = 0 := by
      have := List.mem_filter.mp hmem
      simpa using this.2
    exact Nat.mul_div_cancel' (Nat.dvd_of_mod_eq_zero hmod)
  · rw [hbs, List.getD_append_right]
    · simp
    · simp

set_option maxRecDepth 8000 in
/-- Witness for C9_bucket_token_budget at `max_tokens = 100`,
`max_seq_len = 600`, bucket index 4 (boundary 10, batch size 10). -/
theorem C9_witness :
    4 < (boundaries 100 600).length ∧
    ((boundaries 100 600).getD 4 0 * (batch_sizes 100 600).getD 4 0 = 100 ∧
     (batch_sizes 100 600).getD (boundaries 100 600).length 0 = 1) :=
  ⟨by decide, C9_bucket_token_budget 100 600 4 (by decide)⟩

/-- Claim C3, counterexample: with start token 5, on the one-row target batch
`[[5, 7]]` (first start token at position 0) with cross-entropy values
`[[3, 1]]`, the code averages over both positions (loss 2), while the mean over
the positions described by the claim (non-padding and outside the region up to
and including the first start token) is 1. -/
theorem C3_counterexample :
    InverseBert.calculate_loss 5 [[5, 7]] [[3, 1]] = 2 ∧
    claimed_loss 5 [[5, 7]] [[3, 1]] = 1 ∧
    InverseBert.calculate_loss 5 [[5, 7]] [[3, 1]] ≠ claimed_loss 5 [[5, 7]] [[3, 1]] := by
  have h1 : InverseBert.calculate_loss 5 [[5, 7]] [[3, 1]] = 2 := by
    simp [InverseBert.calculate_loss, InverseBert.final_mask, InverseBert.lengths,
          InverseBert.sequence_mask, padding_mask_row, boolean_mask, reduce_mean,
          List.range_succ]
    norm_num
  have h2 : claimed_loss 5 [[5, 7]] [[3, 1]] = 1 := by
    simp [claimed_loss, claimed_mask, claimed_region_len, padding_mask_row, boolean_mask,
          reduce_mean, List.range_succ]
  refine ⟨h1, h2, ?_⟩
  rw [h1, h2]
  norm_num

/-- Claim C3 (amended): for every target batch the per-step loss of the
prefix-conditioned variant equals the mean of the per-position cross-entropy
over exactly the non-padding positions outside the conditioning-prefix region,
where the prefix region of a row is all positions up to and including the first
start token when the first start token sits at a positive position, and empty
when no start token is present or the first one sits at position 0. -/
theorem C3_prefix_loss (start_idx : Int) (gt : List (List Int))
    (loss : List (List ℚ)) :
    InverseBert.calculate_loss start_idx gt loss = amended_loss start_idx gt loss := by
  unfold InverseBert.calculate_loss amended_loss
  simp only [final_mask_eq_amended]

/-- Claim C8: for a causal cross-entropy model, the masked training loss of
train.py is invariant to the padding amount: a nondegenerate batch and the same
batch with `k` trailing padding columns appended yield the identical loss. -/
theorem C8_pad_invariance (ce : List Int → List Int → Nat → ℚ) (hce : CausalCE ce)
    (batch : List (List Int)) (k : Nat)
    (_hnd : nondegenerate batch = true) :
    train_step_loss ce (batch.map (pad_row k)) = train_step_loss ce batch := by
  unfold train_step_loss Train.calculate_loss
  rw [List.map_map, List.map_map]
  rw [List.zip_map', List.zip_map', List.map_map, List.map_map]
  congr 2
  apply List.map_congr_left
  intro row hrow
  exact masked_row_pad ce hce row k

/-- Witness for C8_pad_invariance: the constant-zero cross-entropy function is
causal, the batch `[[1, 2]]` is nondegenerate, and appending three padding
columns leaves its loss unchanged. -/
theorem C8_witness :
    CausalCE (fun _ _ _ => (0 : ℚ)) ∧ nondegenerate [[1, 2]] = true ∧
    train_step_loss (fun _ _ _ => (0 : ℚ)) ([[1, 2]].map (pad_row 3))
      = train_step_loss (fun _ _ _ => (0 : ℚ)) [[1, 2]] :=
  ⟨fun _ _ _ _ _ _ _ => rfl, by decide,
   C8_pad_invariance (fun _ _ _ => (0 : ℚ)) (fun _ _ _ _ _ _ _ => rfl) [[1, 2]] 3 (by decide)⟩

/-- Claim C10: in the prefix-conditioned loss, a target row with no start token
at all, or whose first start token sits at position 0, gets input-span length 0
(the input-span mask excludes zero positions), and its final loss mask reduces
to the padding mask alone. -/
theorem C10_prefix_empty_region (start_idx : Int) (gt : List Int)
    (h : (∀ t ∈ gt, t ≠ start_idx) ∨ gt.head? = some start_idx) :
    InverseBert.lengths start_idx gt = 0 ∧
    InverseBert.final_mask start_idx gt = padding_mask_row gt := by
  have hlen : InverseBert.lengths start_idx gt = 0 := by
    unfold InverseBert.lengths
    rcases h with h | h
    · have hany : gt.any (fun t => t == start_idx) = false := by
        rw [List.any_eq_false]
        intro t ht
        simpa using h t ht
      simp [hany]
    · cases gt with
      | nil => simp at h
      | cons a l =>
          have ha : a = start_idx := by simp at h; exact h
          have hfi : (a :: l).findIdx (fun t => t == start_idx) = 0 := by
            simp [List.findIdx_cons, ha]
          by_cases hany : (a :: l).any (fun t => t == start_idx)
          · simp [hany, hfi]
          · simp [hany]
  refine ⟨hlen, ?_⟩
  unfold InverseBert.final_mask
  rw [hlen]
  have hseq : (InverseBert.sequence_mask 0 gt.length).map (fun b => !b)
      = List.replicate gt.length true := by
    have hmem : ∀ b ∈ (InverseBert.sequence_mask 0 gt.length).map (fun b => !b), b = true := by
      intro b hb
      simp [InverseBert.sequence_mask] at hb
      obtain ⟨j, hj, rfl⟩ := hb
      simp
    have h2 := List.eq_replicate_of_mem hmem
    rw [h2]
    simp [InverseBert.sequence_mask]
  rw [hseq]
  exact zipWith_and_replicate_true _ _ (by simp [padding_mask_row])

/-- Witness for C10_prefix_empty_region: the row `[3, 4]` contains no start
token 5, and its final mask is the padding mask. -/
theorem C10_witness :
    ((∀ t ∈ ([3, 4] : List Int), t ≠ 5) ∨ ([3, 4] : List Int).head? = some 5) ∧
    (InverseBert.lengths 5 [3, 4] = 0 ∧
     InverseBert.final_mask 5 [3, 4] = padding_mask_row [3, 4]) :=
  ⟨Or.inl (by decide), C10_prefix_empty_region 5 [3, 4] (Or.inl (by decide))⟩

end LMSwe
